import Mathlib

/-!
Verification development for the cendoj-scraper PDF discovery engine.

Shallow embedding of the components the claims concern:
* `src/utils/adaptive_limiter.py` (`AdaptiveRateLimiter`)
* `src/utils/proxy_manager.py` (`ProxyRecord.update_score`, `ProxyManager.mark_result`)
* `src/scraper/deep_crawler.py` (`DeepCrawler`: normalization, extraction, store, crawl loop,
  checkpointing, initialization)
* `src/scraper/discovery_scanner.py` (`DiscoveryScanner`: session lifecycle, resume wiring)

Machine reals (Python floats) are modelled as exact rationals; wall-clock instants
(`time.time()` / `datetime.utcnow()`) are passed explicitly as rational parameters.
-/

namespace Cendoj

/-! ### Adaptive rate limiter — src/utils/adaptive_limiter.py

`AdaptiveRateLimiter.__init__` stores the configuration and starts with a full bucket.
`tokens`, rates and timestamps are Python floats, modelled as `ℚ`.
-/

structure LimiterState where
  base_rate : ℚ
  current_rate : ℚ
  burst_size : ℚ
  backoff_on_429 : Bool
  max_backoff : ℚ
  decrease_factor : ℚ
  tokens : ℚ
  last_refill : ℚ
  total_requests : ℕ
  count_429 : ℕ
  current_backoff : ℚ
  deriving Repr, DecidableEq

namespace LimiterState

/-- `AdaptiveRateLimiter.__init__(requests_per_minute, burst_size, backoff_on_429,
max_backoff_seconds, decrease_factor=0.5)`; `t0` models the `time.time()` stored in
`last_refill`. -/
def init (requestsPerMinute burstSize : ℚ) (backoffOn429 : Bool)
    (maxBackoffSeconds : ℚ) (t0 : ℚ) : LimiterState :=
  { base_rate := requestsPerMinute
    current_rate := requestsPerMinute
    burst_size := burstSize
    backoff_on_429 := backoffOn429
    max_backoff := maxBackoffSeconds
    decrease_factor := 1/2
    tokens := burstSize
    last_refill := t0
    total_requests := 0
    count_429 := 0
    current_backoff := 0 }

/-- `AdaptiveRateLimiter._refill`: add `elapsed * current_rate / 60` tokens, capped at
`burst_size`, and stamp `last_refill = now`. -/
def refill (s : LimiterState) (now : ℚ) : LimiterState :=
  let elapsed := now - s.last_refill
  let refillRate := s.current_rate / 60
  { s with tokens := min s.burst_size (s.tokens + elapsed * refillRate)
           last_refill := now }

/-- One call to `AdaptiveRateLimiter.wait()` at instant `now`.  The code refills and, if a
token is available, consumes it and returns.  Otherwise the wait-time computation executes
`tokens_needed / refill_rate if refilknowledge > 0 else 1.0`: `refilknowledge` is an
unbound name, so the call raises `NameError` before any sleep can happen (the module also
never imports `random`, and `self.logger` does not exist). -/
def wait (s : LimiterState) (now : ℚ) : Except String LimiterState :=
  let s1 := refill s now
  if 0 < s1.tokens then
    .ok { s1 with tokens := s1.tokens - 1, total_requests := s1.total_requests + 1 }
  else
    .error "NameError: name refilknowledge is not defined"

/-- `AdaptiveRateLimiter.on_429()`.  With `backoff_on_429` disabled the method returns at
once.  Otherwise it increments `429_count`, halves `current_rate` (floored at 1) and
records the backoff seconds in `stats["current_backoff"]` — and then executes
`self.logger.warning(...)` (line 106).  The class never defines a `logger` attribute
(only the module-level `logger` exists), so that line raises `AttributeError`: the later
assignments `self.tokens = 0` and `self.last_refill = time.time() - backoff_seconds`
(lines 112–113), which the comment says enforce the backoff, are unreachable.  The result
pairs the mutated state with the raised exception (`none` = returned normally). -/
def on429 (s : LimiterState) : LimiterState × Option String :=
  if !s.backoff_on_429 then (s, none)
  else
    let count := s.count_429 + 1
    let newRate := max 1 (s.current_rate * s.decrease_factor)
    let backoffSeconds := min s.max_backoff ((count : ℚ) ^ 2 * 10)
    ({ s with count_429 := count
              current_rate := newRate
              current_backoff := backoffSeconds },
     some "AttributeError: AdaptiveRateLimiter object has no attribute logger")

/-- `AdaptiveRateLimiter.on_success()`: when `current_rate < base_rate` it raises the
rate by 10% (capped at `base_rate`) and then `self.logger.info(...)` raises
`AttributeError` (same missing attribute); at full rate it returns without touching the
logger. -/
def onSuccess (s : LimiterState) : LimiterState × Option String :=
  if s.current_rate < s.base_rate then
    ({ s with current_rate := min s.base_rate (s.current_rate * (11/10)) },
     some "AttributeError: AdaptiveRateLimiter object has no attribute logger")
  else (s, none)

/-- `n` consecutive `wait()` calls at the same instant, stopping at the first raise. -/
def waitRepeat (s : LimiterState) (now : ℚ) : ℕ → Except String LimiterState
  | 0 => .ok s
  | n + 1 =>
    match waitRepeat s now n with
    | .ok s' => wait s' now
    | .error e => .error e

end LimiterState

/-! ### Proxy scoring — src/utils/proxy_manager.py -/

/-- `ProxyRecord` fields involved in scoring.  Timestamps are seconds (`ℚ`); `Option`
models Python `None`. -/
structure ProxyRecord where
  score : ℚ
  total_requests : ℕ
  successful_requests : ℕ
  failed_requests : ℕ
  avg_response_time : Option ℚ
  last_success : Option ℚ
  last_error : Option ℚ
  is_healthy : Bool
  deriving Repr, DecidableEq

namespace ProxyRecord

/-- `ProxyRecord.success_rate`. -/
def successRate (p : ProxyRecord) : ℚ :=
  if p.total_requests = 0 then 1
  else (p.successful_requests : ℚ) / (p.total_requests : ℚ)

/-- `ProxyRecord.update_score` evaluated with `datetime.utcnow()` equal to `now`.
`if self.avg_response_time:` is Python truthiness: `None` and `0.0` both skip the
response-time component. -/
def updateScore (p : ProxyRecord) (now : ℚ) : ProxyRecord :=
  let successWeight := p.successRate * 50
  let responseWeight : ℚ :=
    match p.avg_response_time with
    | none => 0
    | some t => if t = 0 then 0 else if t ≤ 2 then 25 else if t ≤ 5 then 15 else 5
  let recencyWeight : ℚ :=
    match p.last_success with
    | none => 0
    | some ls =>
      let hoursAgo := (now - ls) / 3600
      if hoursAgo < 1 then 15 else if hoursAgo < 6 then 10 else 0
  let failurePenalty : ℚ :=
    match p.last_error with
    | none => 0
    | some le =>
      let hoursAgo := (now - le) / 3600
      if hoursAgo < 1 then 20 else if hoursAgo < 6 then 10 else 0
  { p with score := max 0 (min 100 (successWeight + responseWeight + recencyWeight - failurePenalty)) }

/-- `ProxyManager.mark_result(proxy, success, response_time, error)` at instant `now`
(score-relevant effects; the low-score prune and periodic cache flush do not change the
record's score fields).  `if response_time:` is again Python truthiness. -/
def markResult (p : ProxyRecord) (success : Bool) (responseTime : Option ℚ) (now : ℚ) :
    ProxyRecord :=
  let p1 := { p with total_requests := p.total_requests + 1 }
  let p2 :=
    if success then
      let p' := { p1 with successful_requests := p1.successful_requests + 1
                          last_success := some now }
      match responseTime with
      | none => p'
      | some rt =>
        if rt = 0 then p'
        else
          match p'.avg_response_time with
          | none => { p' with avg_response_time := some rt }
          | some old => { p' with avg_response_time := some (old * (8/10) + rt * (2/10)) }
    else
      { p1 with failed_requests := p1.failed_requests + 1, last_error := some now }
  updateScore p2 now

end ProxyRecord

/-! ### URL normalization — `DeepCrawler._normalize_url` (src/scraper/deep_crawler.py)

The code is `parsed = urlparse(url.lower())` followed by
`f"{parsed.scheme}://{parsed.netloc}{parsed.path}"`.  Strings are modelled as `List Char`
(`Str`); `lowerChar` models `str.lower` on ASCII (the URLs involved are ASCII).  The
parsing functions below model CPython `urllib.parse.urlparse`: fragment split at the
first `#`, query at the first `?` before it, scheme recognized when a letter-led run of
scheme characters precedes the first `:`, netloc only after a leading `//` and delimited
by `/`, and path parameters (`;` in the last segment) excluded from `parsed.path`. -/

abbrev Str := List Char

/-- ASCII case folding of Python `str.lower` (the URLs involved are ASCII). -/
def lowerChar (c : Char) : Char := c.toLower

/-- Split a list at the first occurrence of `c`: `(part before, rest after)` with
`none` when `c` does not occur. -/
def splitFirst (c : Char) : Str → Str × Option Str
  | [] => ([], none)
  | x :: xs =>
    if x = c then ([], some xs)
    else (x :: (splitFirst c xs).1, (splitFirst c xs).2)

/-- CPython `scheme_chars`: letters, digits, `+`, `-`, `.`. -/
def isSchemeChar (c : Char) : Bool :=
  c.isAlpha || c.isDigit || c = '+' || c = '-' || c = '.'

/-- A scheme candidate is accepted when it starts with a letter and consists of scheme
characters. -/
def validScheme : Str → Bool
  | [] => false
  | c :: cs => c.isAlpha && cs.all isSchemeChar

/-- Split `scheme :` off the URL when the prefix before the first `:` is a valid
scheme; otherwise the scheme is empty. -/
def splitSchemePart (l : Str) : Str × Str :=
  match (splitFirst ':' l).2 with
  | some after =>
    if validScheme (splitFirst ':' l).1 then ((splitFirst ':' l).1, after) else ([], l)
  | none => ([], l)

/-- After the scheme, a netloc exists only following `//` and extends to the next `/`. -/
def splitNetloc (l : Str) : Str × Str :=
  match l with
  | '/' :: '/' :: rest =>
    (rest.takeWhile (fun c => !(c = '/')), rest.dropWhile (fun c => !(c = '/')))
  | _ => ([], l)

/-- Split a list at its last `/`: `some (before, after)` with `/` not in `after`. -/
def splitLastSlash (l : Str) : Option (Str × Str) :=
  match (splitFirst '/' l.reverse).2 with
  | none => none
  | some revBefore => some (revBefore.reverse, (splitFirst '/' l.reverse).1.reverse)

/-- CPython `_splitparams`: when the path has a `/`, parameters start at the first `;`
of the last segment; otherwise at the first `;`.  `parsed.path` excludes them. -/
def dropParams (path : Str) : Str :=
  match splitLastSlash path with
  | some (before, last) => before ++ '/' :: (splitFirst ';' last).1
  | none => (splitFirst ';' path).1

structure UrlParts where
  scheme : Str
  netloc : Str
  path : Str
  deriving Repr, DecidableEq

/-- Scheme / netloc / path extraction from the part of the URL before query and
fragment. -/
def parseRest (bq : Str) : UrlParts :=
  let sp := splitSchemePart bq
  let np := splitNetloc sp.2
  { scheme := sp.1, netloc := np.1, path := dropParams np.2 }

/-- `urllib.parse.urlparse` (components used by `_normalize_url`): strip the fragment at
the first `#`, the query at the first `?`, then split scheme, netloc and path. -/
def parseUrl (l : Str) : UrlParts :=
  parseRest ((splitFirst '?' ((splitFirst '#' l).1)).1)

/-- `f"{parsed.scheme}://{parsed.netloc}{parsed.path}"`. -/
def normCore (l : Str) : Str :=
  let p := parseUrl l
  p.scheme ++ ':' :: '/' :: '/' :: (p.netloc ++ p.path)

/-- `DeepCrawler._normalize_url`: lowercase the whole URL, parse, and rebuild from
scheme, netloc and path only. -/
def normalizeUrl (url : Str) : Str := normCore (url.map lowerChar)

/-! Supporting lemmas about the parsing primitives. -/

/-! ### PDF regex scan — `re.findall(r"https?://[^\s\x22\x27<>]+\.pdf", s, re.IGNORECASE)`

Used by `DeepCrawler._extract_pdfs_from_page` methods 2 and 3.  The scan walks the text
left to right; at a match the search resumes after it (non-overlapping, as `findall`).
The greedy `[^...]+` with backtracking makes a match end at the *last* `.pdf` inside the
run of allowed characters.  ASCII whitespace models `\s`. -/

/-- Characters allowed inside the matched URL: everything except whitespace and
`"` `'` `<` `>`. -/
def isPdfUrlChar (c : Char) : Bool :=
  !(c = ' ' || c = '\t' || c = '\n' || c = '\r' || c = '\x0b' || c = '\x0c' ||
    c = '"' || c = '\'' || c = '<' || c = '>')

/-- Case-insensitive literal prefix test (pattern given lowercase). -/
def prefixCI (pat : Str) (l : Str) : Bool :=
  match pat, l with
  | [], _ => true
  | _ :: _, [] => false
  | p :: ps, c :: cs => (lowerChar c = p) && prefixCI ps cs

/-- Does the list end in `.pdf` (case-insensitive)? -/
def endsWithPdfCI (l : Str) : Bool :=
  match l.reverse with
  | f :: d :: p :: dot :: _ =>
    (lowerChar f = 'f') && (lowerChar d = 'd') && (lowerChar p = 'p') && (dot = '.')
  | _ => false

/-- Largest `k` such that the first `k` characters of the allowed-character run form
`[^...]+\.pdf` (so `k ≥ 5` and the prefix ends in `.pdf`): the greedy match length. -/
def bestPdfEnd (run : Str) : Option ℕ :=
  ((List.range (run.length + 1)).reverse).find?
    (fun k => decide (5 ≤ k) && endsWithPdfCI (run.take k))

/-- Try to match the pattern at the head of `l`; returns the match length. -/
def pdfMatchAt (l : Str) : Option ℕ :=
  let step : ℕ → Option ℕ := fun plen =>
    match bestPdfEnd ((l.drop plen).takeWhile isPdfUrlChar) with
    | some k => some (plen + k)
    | none => none
  if prefixCI ("https://".data) l then step 8
  else if prefixCI ("http://".data) l then step 7
  else none

def findPdfUrlsAux : ℕ → Str → List Str
  | 0, _ => []
  | _ + 1, [] => []
  | fuel + 1, c :: t =>
    match pdfMatchAt (c :: t) with
    | some n => (c :: t).take n :: findPdfUrlsAux fuel ((c :: t).drop n)
    | none => findPdfUrlsAux fuel t

/-- All pattern matches in `l`, left to right, non-overlapping.  (Each scan step consumes
at least one character, so `l.length` fuel is exact.) -/
def findPdfUrls (l : Str) : List Str := findPdfUrlsAux l.length l

/-! ### Link extraction and storage — `DeepCrawler._extract_pdfs_from_page`,
`DeepCrawler._store_pdf_link` (src/scraper/deep_crawler.py) -/

/-- Modelled fragment of `urllib.parse.urljoin`: covers empty, absolute (own scheme),
scheme-relative, absolute-path and leaf-relative references; no dot-segment resolution or
query/fragment merging (not exercised by the inputs the crawler feeds it). -/
def urljoin (base ref : Str) : Str :=
  if ref = [] then base
  else if (splitSchemePart ref).1 ≠ [] then ref
  else
    let bp := parseUrl base
    match ref with
    | '/' :: '/' :: _ => bp.scheme ++ ':' :: ref
    | '/' :: _ => bp.scheme ++ ':' :: '/' :: '/' :: (bp.netloc ++ ref)
    | _ =>
      let dir :=
        match splitLastSlash bp.path with
        | some (b, _) => b ++ ['/']
        | none => ['/']
      bp.scheme ++ ':' :: '/' :: '/' :: (bp.netloc ++ dir ++ ref)

/-- The abstract Page capability as consumed by the extractor: the elements returned by
`query_selector_all("a[href$=.pdf]")` with their `href` attributes, the `script` elements
with their `text_content()`, and `page.content()`. -/
structure Page where
  pdfAnchorHrefs : List (Option Str)
  scriptTexts : List (Option Str)
  content : Str
  deriving Repr, DecidableEq

structure PdfCandidate where
  url : Str
  source_url : Str
  depth : ℕ
  method : String
  confidence : ℚ
  deriving Repr, DecidableEq, Inhabited

/-- Method 1: CSS selector hits; `if href:` skips `None` and empty attributes. -/
def extractPdfsCss (page : Page) (sourceUrl : Str) (depth : ℕ) : List PdfCandidate :=
  page.pdfAnchorHrefs.filterMap fun h? =>
    match h? with
    | some h =>
      if h = [] then none
      else some { url := urljoin sourceUrl h, source_url := sourceUrl, depth := depth,
                  method := "css_pdf_selector", confidence := 9/10 }
    | none => none

/-- Method 2: regex scan of the whole HTML. -/
def extractPdfsRegex (page : Page) (sourceUrl : Str) (depth : ℕ) : List PdfCandidate :=
  (findPdfUrls page.content).map fun m =>
    { url := m, source_url := sourceUrl, depth := depth,
      method := "regex_fallback", confidence := 7/10 }

/-- Method 3: the same regex on each script text; `if script_content:` skips `None` and
empty texts. -/
def extractPdfsScript (page : Page) (sourceUrl : Str) (depth : ℕ) : List PdfCandidate :=
  (page.scriptTexts.map fun t? =>
    match t? with
    | some t =>
      if t = [] then []
      else (findPdfUrls t).map fun m =>
        { url := m, source_url := sourceUrl, depth := depth,
          method := "script_scan", confidence := 6/10 }
    | none => []).flatten

/-- The `pdfs` list before deduplication: methods applied in order. -/
def allPdfCandidates (page : Page) (sourceUrl : Str) (depth : ℕ) : List PdfCandidate :=
  extractPdfsCss page sourceUrl depth ++ extractPdfsRegex page sourceUrl depth ++
    extractPdfsScript page sourceUrl depth

/-- The final dedup loop: first-seen normalized URL wins. -/
def dedupByNormalized (seen : List Str) : List PdfCandidate → List PdfCandidate
  | [] => []
  | p :: rest =>
    if normalizeUrl p.url ∈ seen then dedupByNormalized seen rest
    else p :: dedupByNormalized (normalizeUrl p.url :: seen) rest

/-- `DeepCrawler._extract_pdfs_from_page`. -/
def extractPdfsFromPage (page : Page) (sourceUrl : Str) (depth : ℕ) : List PdfCandidate :=
  dedupByNormalized [] (allPdfCandidates page sourceUrl depth)

/-- A `PDFLink` row (fields touched by the crawler). -/
structure PdfRow where
  url : Str
  normalized_url : Str
  source_url : Str
  discovery_session_id : Str
  status : String
  extraction_method : String
  extraction_confidence : ℚ
  validated_at : Option ℚ
  http_status : Option ℕ
  content_length : Option ℕ
  deriving Repr, DecidableEq

/-- The discovery flags consumed by the per-PDF processing. -/
structure CrawlCfg where
  deduplicate : Bool
  validate_on_discovery : Bool
  deriving Repr, DecidableEq

/-- `DeepCrawler._store_pdf_link`: pre-check by normalized URL; on a duplicate with
deduplication enabled, skip; with deduplication disabled the INSERT hits the unique index
`idx_pdf_links_normalized_url` (storage/schemas.py), the exception is caught, the session
rolled back and `None` returned; otherwise insert a fresh `discovered` row. -/
def storePdfLink (cfg : CrawlCfg) (sessionId : Str) (store : List PdfRow)
    (p : PdfCandidate) : List PdfRow × Option PdfRow :=
  let normalized := normalizeUrl p.url
  let existing := store.find? (fun r => r.normalized_url == normalized)
  if existing.isSome && cfg.deduplicate then
    (store, none)
  else if existing.isSome then
    (store, none)
  else
    let row : PdfRow :=
      { url := p.url, normalized_url := normalized, source_url := p.source_url
        discovery_session_id := sessionId, status := "discovered"
        extraction_method := p.method, extraction_confidence := p.confidence
        validated_at := none, http_status := none, content_length := none }
    (store ++ [row], some row)

/-- Sequential `_store_pdf_link` calls, as the per-page loop performs them. -/
def storeAllPdfLinks (cfg : CrawlCfg) (sessionId : Str) (store : List PdfRow) :
    List PdfCandidate → List PdfRow
  | [] => store
  | p :: rest => storeAllPdfLinks cfg sessionId (storePdfLink cfg sessionId store p).1 rest

/-- Result of `DeepCrawler._validate_url` (fields used when updating the row). -/
structure ValidationResult where
  accessible : Bool
  status : Option ℕ
  content_length : Option ℕ
  deriving Repr, DecidableEq

/-- What `yield pdf_data` delivers for one PDF. -/
structure EmittedPdf where
  url : Str
  method : String
  had_db_row : Bool
  validation : Option ValidationResult
  deriving Repr, DecidableEq

/-- The in-place ORM update `pdf_link.status = ...; db_session.commit()` on the row with
the given normalized URL. -/
def updateRowStatus (store : List PdfRow) (normalized : Str) (v : ValidationResult)
    (now : ℚ) : List PdfRow :=
  store.map fun r =>
    if r.normalized_url == normalized then
      { r with status := if v.accessible then "accessible" else "broken"
               validated_at := some now, http_status := v.status
               content_length := v.content_length }
    else r

/-- One turn of the per-PDF loop in `DeepCrawler.crawl` (lines 158–176): store the link,
optionally validate and update the row — guarded by `if pdf_link:` — and always yield the
PDF to the output stream. -/
def processDiscoveredPdf (cfg : CrawlCfg) (sessionId : Str) (store : List PdfRow)
    (p : PdfCandidate) (v : ValidationResult) (now : ℚ) : List PdfRow × List EmittedPdf :=
  let sr := storePdfLink cfg sessionId store p
  let store2 :=
    if cfg.validate_on_discovery then
      match sr.2 with
      | some row => updateRowStatus sr.1 row.normalized_url v now
      | none => sr.1
    else sr.1
  (store2, [{ url := p.url, method := p.method, had_db_row := sr.2.isSome
              validation := if cfg.validate_on_discovery then some v else none }])

/-! ### One frontier iteration — `DeepCrawler.crawl` (src/scraper/deep_crawler.py,
lines 106–201)

The branch structure of the visit part of one loop iteration, abstracted over the
environment outcomes: the navigation result, the CAPTCHA decision, whether the
extraction/persist/enqueue block raises, and whether `page.close()` succeeds. -/

inductive NavOutcome where
  | raised
  | ok (status : Option ℕ)
  deriving Repr, DecidableEq

structure IterEnv where
  nav : NavOutcome
  captchaSkip : Bool
  extractOk : Bool
  closeOk : Bool
  deriving Repr, DecidableEq

structure IterResult where
  pageClosed : Bool
  addedVisited : Bool
  countedError : Bool
  countedCaptcha : Bool
  deriving Repr, DecidableEq

/-- One visit: HTTP ≥ 400 closes and skips; a CAPTCHA skip counts, closes and skips; an
exception anywhere lands in the `except` block (error counted, no close, no visit); the
success path closes the page and only then adds the normalized URL to the visited set
(a failing close is caught before the add). -/
def crawlIteration (env : IterEnv) : IterResult :=
  match env.nav with
  | .raised =>
    { pageClosed := false, addedVisited := false, countedError := true
      countedCaptcha := false }
  | .ok st =>
    let httpError := match st with | some s => decide (400 ≤ s) | none => false
    if httpError then
      { pageClosed := env.closeOk, addedVisited := false, countedError := !env.closeOk
        countedCaptcha := false }
    else if env.captchaSkip then
      { pageClosed := env.closeOk, addedVisited := false, countedError := !env.closeOk
        countedCaptcha := true }
    else if !env.extractOk then
      { pageClosed := false, addedVisited := false, countedError := true
        countedCaptcha := false }
    else
      { pageClosed := env.closeOk, addedVisited := env.closeOk
        countedError := !env.closeOk, countedCaptcha := false }

/-- Spec-side predicate, for comparison: the iteration fully processed its page —
navigation returned without exception or HTTP error, no CAPTCHA skip, the
extraction block completed, and the final close succeeded. -/
def specFullyProcessed (env : IterEnv) : Bool :=
  (match env.nav with
   | .raised => false
   | .ok st => match st with | some s => decide (s < 400) | none => true)
  && !env.captchaSkip && env.extractOk && env.closeOk

/-! ### Checkpointing — `DeepCrawler._save_state` / `_load_state` / `initialize`,
and the resume wiring of `DiscoveryScanner` (src/scraper/discovery_scanner.py) -/

structure FrontierEntry where
  url : Str
  depth : ℕ
  source_url : Option Str
  method : String
  deriving Repr, DecidableEq

structure CrawlStats where
  pages_visited : ℕ
  pdfs_found : ℕ
  internal_links_found : ℕ
  errors : ℕ
  captchas : ℕ
  deriving Repr, DecidableEq

def initCrawlStats : CrawlStats :=
  { pages_visited := 0, pdfs_found := 0, internal_links_found := 0, errors := 0
    captchas := 0 }

/-- The checkpoint payload `{session_id, visited_urls, queue, stats, saved_at}`. -/
structure CrawlerCheckpoint where
  session_id : Str
  visited_urls : List Str
  queue : List FrontierEntry
  stats : CrawlStats
  saved_at : Str
  deriving Repr, DecidableEq

/-- `Path(config.session_dir) / f"crawler_state_{session_id}.pkl"` (the directory prefix
is constant and omitted). -/
def stateFileName (sessionId : Str) : Str :=
  ("crawler_state_".data) ++ sessionId ++ (".pkl".data)

/-- `pickle.dumps` of the state dict, modelled as an abstract serialization. -/
def encodeState (c : CrawlerCheckpoint) : Str :=
  ("pickle:".data) ++ c.session_id ++ '|' :: c.saved_at ++
    c.visited_urls.flatten ++ (c.queue.map FrontierEntry.url).flatten

/-- File-system operations performed by a writer. -/
inductive FileOp where
  | openTrunc (path : Str)
  | writeAll (path : Str) (content : Str)
  | rename (src dst : Str)
  deriving Repr, DecidableEq

def FileOp.isRenameOp : FileOp → Bool
  | .rename _ _ => true
  | _ => false

abbrev FileSys := List (Str × Str)

def setFile (fs : FileSys) (path content : Str) : FileSys :=
  (path, content) :: fs.filter (fun e => !(e.1 == path))

def readFile (fs : FileSys) (path : Str) : Option Str :=
  (fs.find? (fun e => e.1 == path)).map Prod.snd

def applyOp (fs : FileSys) : FileOp → FileSys
  | .openTrunc p => setFile fs p []
  | .writeAll p c => setFile fs p c
  | .rename src dst =>
    match readFile fs src with
    | some c => setFile (fs.filter (fun e => !(e.1 == src))) dst c
    | none => fs

def runOps (fs : FileSys) (ops : List FileOp) : FileSys := ops.foldl applyOp fs

/-- `DeepCrawler._save_state`: `with open(self.state_file, 'wb') as f: pickle.dump(state, f)`
— a truncating open of the final checkpoint path followed by an in-place write.  No
temporary file, no rename. -/
def saveStateOps (c : CrawlerCheckpoint) : List FileOp :=
  [ .openTrunc (stateFileName c.session_id)
  , .writeAll (stateFileName c.session_id) (encodeState c) ]

/-- Spec-side predicate, for comparison: the write-temp-then-rename discipline — the
final path is never opened or written directly, and receives its content via a rename. -/
def specTempThenRename (ops : List FileOp) (finalPath : Str) : Bool :=
  ops.all (fun op =>
    match op with
    | .openTrunc p => !(p == finalPath)
    | .writeAll p _ => !(p == finalPath)
    | .rename _ _ => true)
  && ops.any (fun op =>
    match op with
    | .rename _ dst => dst == finalPath
    | _ => false)

/-- Checkpoint files on disk, already decoded (`pickle.load` composed with `open`). -/
abbrev CheckpointFS := List (Str × CrawlerCheckpoint)

def lookupCheckpoint (fs : CheckpointFS) (path : Str) : Option CrawlerCheckpoint :=
  (fs.find? (fun e => e.1 == path)).map Prod.snd

structure CrawlerInitState where
  visited_urls : List Str
  queue : List FrontierEntry
  stats : CrawlStats
  deriving Repr, DecidableEq

/-- `DeepCrawler.initialize(session_id, seed_urls)`: when
`crawler_state_{session_id}.pkl` exists, `_load_state` replaces the visited set, the
queue and the stats; otherwise the queue is seeded with `(url, 0, None, "seed")`. -/
def crawlerInitialize (fs : CheckpointFS) (sessionId : Str) (seedUrls : List Str) :
    CrawlerInitState :=
  match lookupCheckpoint fs (stateFileName sessionId) with
  | some st => { visited_urls := st.visited_urls, queue := st.queue, stats := st.stats }
  | none =>
    { visited_urls := []
      queue := seedUrls.map (fun u =>
        { url := u, depth := 0, source_url := none, method := "seed" })
      stats := initCrawlStats }

/-- The composition the CLI triggers on `--resume`: `DiscoveryScanner.__init__` draws a
fresh uuid into `self.session_id`; `initialize(resume_session_id)` receives the supplied
id but never reads it; `run` then calls `DeepCrawler.initialize` with the scanner's own
fresh `session_id`. -/
def scannerCrawlerInit (freshUuid : Str) (resumeSessionId : Option Str)
    (fs : CheckpointFS) (seedUrls : List Str) : CrawlerInitState :=
  let _ := resumeSessionId
  crawlerInitialize fs freshUuid seedUrls

/-- The visited-set guard at the top of the crawl loop: a dequeued URL is visited only
when its normalized form is absent from the visited set. -/
def wouldVisit (st : CrawlerInitState) (url : Str) : Bool :=
  !(st.visited_urls.contains (normalizeUrl url))

/-- The page of the dedup-across-methods scenario: an anchor `<a href="/x.pdf">` and an
inline script embedding `https://site/x.pdf`; `page.content()` is the full HTML. -/
def dedupScenarioPage : Page :=
  { pdfAnchorHrefs := [some ("/x.pdf".data)]
    scriptTexts := [some ("var u=\"https://site/x.pdf\";".data)]
    content :=
      ("<html><body><a href=\"/x.pdf\">doc</a><script>var u=\"https://site/x.pdf\";</script></body></html>".data) }

/-! ### Session lifecycle — `DiscoveryScanner.run` / `_update_session_status` -/

structure SessionRow where
  status : String
  start_time : ℚ
  end_time : Option ℚ
  deriving Repr, DecidableEq

/-- `DiscoveryScanner._update_session_status`: set the status and stamp `end_time`. -/
def updateSessionStatus (row : SessionRow) (st : String) (now : ℚ) : SessionRow :=
  { row with status := st, end_time := some now }

inductive RunOutcome where
  | drainedNormally
  | keyboardInterrupt
  | fatalError
  deriving Repr, DecidableEq

/-- The status effect of `DiscoveryScanner.run`: `except KeyboardInterrupt` marks
`interrupted`, `except Exception` marks `failed`, and the normal path — frontier drained,
generator exhausted — performs no status update at all. -/
def runFinalStatus (row : SessionRow) (outcome : RunOutcome) (now : ℚ) : SessionRow :=
  match outcome with
  | .keyboardInterrupt => updateSessionStatus row "interrupted" now
  | .fatalError => updateSessionStatus row "failed" now
  | .drainedNormally => row

/-- The terminal statuses named by the schema comment
(`running|completed|failed|interrupted|cancelled`). -/
def isTerminalStatus (s : String) : Bool :=
  s == "completed" || s == "failed" || s == "interrupted" || s == "cancelled"

theorem char_le_iff_toNat {a b : Char} : a ≤ b ↔ a.toNat ≤ b.toNat := by
  rw [Char.le_def, UInt32.le_def, BitVec.le_def]; rfl

theorem lowerChar_toNat_of_upper {c : Char} (h1 : 65 ≤ c.toNat) (h2 : c.toNat ≤ 90) :
    (lowerChar c).toNat = c.toNat + 32 := by
  have hv : (c.toNat + 32).isValidChar := Or.inl (by omega)
  unfold lowerChar Char.toLower
  rw [if_pos ⟨h1, h2⟩]
  show (Char.ofNat _).toNat = _
  unfold Char.ofNat
  rw [dif_pos hv]
  rfl

theorem eq_of_lowerChar_eq (c d : Char) (hd : ¬('a' ≤ d ∧ d ≤ 'z'))
    (h : lowerChar c = d) : c = d := by
  by_cases hc : 65 ≤ c.toNat ∧ c.toNat ≤ 90
  · exfalso
    have ha : ('a').toNat = 97 := rfl
    have hz : ('z').toNat = 122 := rfl
    refine hd ⟨?_, ?_⟩ <;>
      rw [char_le_iff_toNat, ← h, lowerChar_toNat_of_upper hc.1 hc.2] <;> omega
  · simp only [lowerChar, Char.toLower] at h
    rwa [if_neg hc] at h

theorem splitFirst_of_not_mem (c : Char) (l : Str) (h : c ∉ l) :
    splitFirst c l = (l, none) := by
  induction l with
  | nil => rfl
  | cons x xs ih =>
    simp only [List.mem_cons, not_or] at h
    simp [splitFirst, if_neg (Ne.symm h.1), ih h.2, Ne.symm h.1]

theorem splitFirst_append (c : Char) (l r : Str) (h : c ∉ l) :
    splitFirst c (l ++ c :: r) = (l, some r) := by
  induction l with
  | nil => simp [splitFirst]
  | cons x xs ih =>
    simp only [List.mem_cons, not_or] at h
    simp [splitFirst, Ne.symm h.1, ih h.2]

theorem not_mem_splitFirst_fst (c : Char) (l : Str) : c ∉ (splitFirst c l).1 := by
  induction l with
  | nil => simp [splitFirst]
  | cons x xs ih =>
    by_cases hx : x = c
    · simp [splitFirst, hx]
    · simp [splitFirst, hx, ih, Ne.symm hx]

theorem mem_splitFirst_fst {x : Char} (c : Char) (l : Str)
    (h : x ∈ (splitFirst c l).1) : x ∈ l := by
  induction l with
  | nil => simp [splitFirst] at h
  | cons y ys ih =>
    by_cases hy : y = c
    · simp [splitFirst, hy] at h
    · simp only [splitFirst, if_neg hy, List.mem_cons] at h
      rcases h with h | h
      · subst h; exact List.mem_cons_self _ _
      · exact List.mem_cons_of_mem _ (ih h)

theorem mem_splitFirst_snd {x : Char} (c : Char) (l r : Str)
    (hr : (splitFirst c l).2 = some r) (h : x ∈ r) : x ∈ l := by
  induction l with
  | nil => simp [splitFirst] at hr
  | cons y ys ih =>
    by_cases hy : y = c
    · simp only [splitFirst, if_pos hy, Option.some.injEq] at hr
      exact List.mem_cons_of_mem _ (hr ▸ h)
    · simp only [splitFirst, if_neg hy] at hr
      exact List.mem_cons_of_mem _ (ih hr)

theorem splitFirst_reassemble (c : Char) (l r : Str)
    (hr : (splitFirst c l).2 = some r) : l = (splitFirst c l).1 ++ c :: r := by
  induction l with
  | nil => simp [splitFirst] at hr
  | cons y ys ih =>
    by_cases hy : y = c
    · simp only [splitFirst, if_pos hy, Option.some.injEq] at hr
      simp [splitFirst, hy, hr]
    · simp only [splitFirst, if_neg hy] at hr ⊢
      simpa using ih hr

theorem mem_splitSchemePart_fst {x : Char} (l : Str)
    (h : x ∈ (splitSchemePart l).1) : x ∈ l := by
  unfold splitSchemePart at h
  cases hsf : (splitFirst ':' l).2 with
  | none => rw [hsf] at h; simp at h
  | some after =>
    rw [hsf] at h
    simp only at h
    by_cases hv : validScheme (splitFirst ':' l).1
    · rw [if_pos hv] at h
      exact mem_splitFirst_fst ':' l h
    · rw [if_neg hv] at h
      simp at h

theorem mem_splitSchemePart_snd {x : Char} (l : Str)
    (h : x ∈ (splitSchemePart l).2) : x ∈ l := by
  unfold splitSchemePart at h
  cases hsf : (splitFirst ':' l).2 with
  | none => rwa [hsf] at h
  | some after =>
    rw [hsf] at h
    simp only at h
    by_cases hv : validScheme (splitFirst ':' l).1
    · rw [if_pos hv] at h
      exact mem_splitFirst_snd ':' l after hsf h
    · rwa [if_neg hv] at h

theorem mem_splitNetloc_fst {x : Char} (l : Str)
    (h : x ∈ (splitNetloc l).1) : x ∈ l := by
  unfold splitNetloc at h
  split at h
  · next rest =>
    exact List.mem_cons_of_mem _ (List.mem_cons_of_mem _ ((List.takeWhile_sublist _).subset h))
  · simp at h

theorem mem_splitNetloc_snd {x : Char} (l : Str)
    (h : x ∈ (splitNetloc l).2) : x ∈ l := by
  unfold splitNetloc at h
  split at h
  · next rest =>
    exact List.mem_cons_of_mem _ (List.mem_cons_of_mem _ ((List.dropWhile_sublist _).subset h))
  · exact h

theorem mem_splitLastSlash_fst {x : Char} {l b a : Str}
    (h : splitLastSlash l = some (b, a)) (hx : x ∈ b) : x ∈ l := by
  unfold splitLastSlash at h
  cases hsf : (splitFirst '/' l.reverse).2 with
  | none => rw [hsf] at h; simp at h
  | some revBefore =>
    rw [hsf] at h
    injection h with h
    injection h with h1 h2
    rw [← h1, List.mem_reverse] at hx
    exact List.mem_reverse.1 (mem_splitFirst_snd '/' l.reverse revBefore hsf hx)

theorem mem_splitLastSlash_snd {x : Char} {l b a : Str}
    (h : splitLastSlash l = some (b, a)) (hx : x ∈ a) : x ∈ l := by
  unfold splitLastSlash at h
  cases hsf : (splitFirst '/' l.reverse).2 with
  | none => rw [hsf] at h; simp at h
  | some revBefore =>
    rw [hsf] at h
    injection h with h
    injection h with h1 h2
    rw [← h2, List.mem_reverse] at hx
    exact List.mem_reverse.1 (mem_splitFirst_fst '/' l.reverse hx)

theorem mem_dropParams {x : Char} (p : Str)
    (h : x ∈ dropParams p) : x ∈ p ∨ x = '/' := by
  unfold dropParams at h
  cases hsl : splitLastSlash p with
  | none => rw [hsl] at h; exact Or.inl (mem_splitFirst_fst ';' p h)
  | some ba =>
    rw [hsl] at h
    rcases ba with ⟨b, a⟩
    rcases List.mem_append.1 h with hb | hca
    · exact Or.inl (mem_splitLastSlash_fst hsl hb)
    · rcases List.mem_cons.1 hca with hc | hc
      · exact Or.inr hc
      · exact Or.inl (mem_splitLastSlash_snd hsl (mem_splitFirst_fst ';' a hc))

/-- Every character of `normCore l` comes from the pre-query / pre-fragment part of `l`,
or is one of the inserted `:` `/` characters. -/
theorem mem_normCore {x : Char} (l : Str) (h : x ∈ normCore l) :
    x ∈ (splitFirst '?' ((splitFirst '#' l).1)).1 ∨ x = ':' ∨ x = '/' := by
  unfold normCore parseUrl parseRest at h
  set bq := (splitFirst '?' ((splitFirst '#' l).1)).1 with hbq
  simp only at h
  rcases List.mem_append.1 h with hs | hrest
  · exact Or.inl (mem_splitSchemePart_fst bq hs)
  · rcases List.mem_cons.1 hrest with hc | hrest
    · exact Or.inr (Or.inl hc)
    · rcases List.mem_cons.1 hrest with hc | hrest
      · exact Or.inr (Or.inr hc)
      · rcases List.mem_cons.1 hrest with hc | hrest
        · exact Or.inr (Or.inr hc)
        · rcases List.mem_append.1 hrest with hn | hp
          · exact Or.inl (mem_splitSchemePart_snd bq (mem_splitNetloc_fst _ hn))
          · rcases mem_dropParams _ hp with hp | hp
            · exact Or.inl (mem_splitSchemePart_snd bq (mem_splitNetloc_snd _ hp))
            · exact Or.inr (Or.inr hp)

theorem not_mem_map_lowerChar {c : Char} (hc : ¬('a' ≤ c ∧ c ≤ 'z')) (u : Str)
    (h : c ∉ u) : c ∉ u.map lowerChar := by
  intro hmem
  rcases List.mem_map.1 hmem with ⟨d, hd, hde⟩
  exact h ((eq_of_lowerChar_eq d c hc hde) ▸ hd)

theorem normCore_append_query (lu lq : Str) (h1 : '?' ∉ lu) (h2 : '#' ∉ lu)
    (h3 : '#' ∉ lq) : normCore (lu ++ '?' :: lq) = normCore lu := by
  have hq : '#' ∉ lu ++ '?' :: lq := by
    intro hm
    rcases List.mem_append.1 hm with hm | hm
    · exact h2 hm
    · rcases List.mem_cons.1 hm with hm | hm
      · exact absurd hm (by decide)
      · exact h3 hm
  unfold normCore parseUrl
  rw [splitFirst_of_not_mem _ _ hq, splitFirst_of_not_mem '#' lu h2]
  show (parseRest ((splitFirst '?' (lu ++ '?' :: lq)).1)).scheme ++ _ = _
  rw [splitFirst_append '?' lu lq h1, splitFirst_of_not_mem '?' lu h1]

theorem readFile_setFile (fs : FileSys) (p c : Str) :
    readFile (setFile fs p c) p = some c := by
  simp [readFile, setFile]

theorem mem_dedupByNormalized {x : PdfCandidate} :
    ∀ (l : List PdfCandidate) (seen : List Str), x ∈ dedupByNormalized seen l →
      x ∈ l ∧ normalizeUrl x.url ∉ seen := by
  intro l
  induction l with
  | nil => intro seen hx; simp [dedupByNormalized] at hx
  | cons p rest ih =>
    intro seen hx
    simp only [dedupByNormalized] at hx
    by_cases hseen : normalizeUrl p.url ∈ seen
    · rw [if_pos hseen] at hx
      obtain ⟨h1, h2⟩ := ih seen hx
      exact ⟨List.mem_cons_of_mem _ h1, h2⟩
    · rw [if_neg hseen] at hx
      rcases List.mem_cons.1 hx with rfl | hx
      · exact ⟨List.mem_cons_self _ _, hseen⟩
      · obtain ⟨h1, h2⟩ := ih _ hx
        exact ⟨List.mem_cons_of_mem _ h1, fun hm => h2 (List.mem_cons_of_mem _ hm)⟩

theorem dedupByNormalized_pairwise :
    ∀ (l : List PdfCandidate) (seen : List Str),
      (dedupByNormalized seen l).Pairwise
        (fun a b => normalizeUrl a.url ≠ normalizeUrl b.url) := by
  intro l
  induction l with
  | nil => intro seen; simp [dedupByNormalized]
  | cons p rest ih =>
    intro seen
    simp only [dedupByNormalized]
    by_cases hseen : normalizeUrl p.url ∈ seen
    · rw [if_pos hseen]; exact ih seen
    · rw [if_neg hseen]
      refine List.pairwise_cons.2 ⟨?_, ih _⟩
      intro b hb heq
      exact (mem_dedupByNormalized _ _ hb).2 (heq ▸ List.mem_cons_self _ _)

theorem dedupByNormalized_keeps_max :
    ∀ (l : List PdfCandidate) (seen : List Str),
      l.Pairwise (fun a b => b.confidence ≤ a.confidence) →
      ∀ x ∈ dedupByNormalized seen l, ∀ c ∈ l,
        normalizeUrl c.url = normalizeUrl x.url → c.confidence ≤ x.confidence := by
  intro l
  induction l with
  | nil => intro seen _ x hx; simp [dedupByNormalized] at hx
  | cons p rest ih =>
    intro seen hs x hx c hc hkey
    obtain ⟨hp, hrest⟩ := List.pairwise_cons.1 hs
    simp only [dedupByNormalized] at hx
    by_cases hseen : normalizeUrl p.url ∈ seen
    · rw [if_pos hseen] at hx
      rcases List.mem_cons.1 hc with rfl | hc
      · exact absurd (hkey ▸ hseen) (mem_dedupByNormalized _ _ hx).2
      · exact ih seen hrest x hx c hc hkey
    · rw [if_neg hseen] at hx
      rcases List.mem_cons.1 hx with rfl | hx
      · rcases List.mem_cons.1 hc with rfl | hc
        · exact le_refl _
        · exact hp c hc
      · rcases List.mem_cons.1 hc with rfl | hc
        · exact absurd (hkey ▸ List.mem_cons_self _ _) (mem_dedupByNormalized _ _ hx).2
        · exact ih _ hrest x hx c hc hkey

theorem conf_extractPdfsCss {p : PdfCandidate} (page : Page) (src : Str) (d : ℕ)
    (hp : p ∈ extractPdfsCss page src d) : p.confidence = 9/10 := by
  simp only [extractPdfsCss, List.mem_filterMap] at hp
  obtain ⟨a, _, hae⟩ := hp
  cases a with
  | none => simp at hae
  | some h =>
    by_cases hh : h = []
    · simp [hh] at hae
    · simp only [if_neg hh, Option.some.injEq] at hae
      subst hae; rfl

theorem conf_extractPdfsRegex {p : PdfCandidate} (page : Page) (src : Str) (d : ℕ)
    (hp : p ∈ extractPdfsRegex page src d) : p.confidence = 7/10 := by
  simp only [extractPdfsRegex, List.mem_map] at hp
  obtain ⟨m, _, he⟩ := hp
  subst he; rfl

theorem conf_extractPdfsScript {p : PdfCandidate} (page : Page) (src : Str) (d : ℕ)
    (hp : p ∈ extractPdfsScript page src d) : p.confidence = 6/10 := by
  simp only [extractPdfsScript, List.mem_flatten, List.mem_map] at hp
  obtain ⟨l, ⟨t, _, htl⟩, hpl⟩ := hp
  cases t with
  | none => subst htl; simp at hpl
  | some t =>
    by_cases hh : t = []
    · rw [← htl] at hpl
      simp only at hpl
      rw [if_pos hh] at hpl
      simp at hpl
    · rw [← htl] at hpl
      simp only at hpl
      rw [if_neg hh] at hpl
      simp only [List.mem_map] at hpl
      obtain ⟨m, _, he⟩ := hpl
      subst he; rfl

theorem allPdfCandidates_sorted (page : Page) (src : Str) (d : ℕ) :
    (allPdfCandidates page src d).Pairwise (fun a b => b.confidence ≤ a.confidence) := by
  unfold allPdfCandidates
  refine List.pairwise_append.2 ⟨List.pairwise_append.2 ⟨?_, ?_, ?_⟩, ?_, ?_⟩
  · refine List.pairwise_of_forall_mem_list ?_
    intro a ha b hb
    rw [conf_extractPdfsCss page src d ha, conf_extractPdfsCss page src d hb]
  · refine List.pairwise_of_forall_mem_list ?_
    intro a ha b hb
    rw [conf_extractPdfsRegex page src d ha, conf_extractPdfsRegex page src d hb]
  · intro a ha b hb
    rw [conf_extractPdfsCss page src d ha, conf_extractPdfsRegex page src d hb]
    norm_num
  · refine List.pairwise_of_forall_mem_list ?_
    intro a ha b hb
    rw [conf_extractPdfsScript page src d ha, conf_extractPdfsScript page src d hb]
  · intro a ha b hb
    rcases List.mem_append.1 ha with ha | ha
    · rw [conf_extractPdfsCss page src d ha, conf_extractPdfsScript page src d hb]
      norm_num
    · rw [conf_extractPdfsRegex page src d ha, conf_extractPdfsScript page src d hb]
      norm_num

/-! ### Theorems: rate limiter claims -/

/-- C1. The claim says that after `on_429()` (with `backoff_on_429` enabled) the rate is
halved, the token count is zero, and no `wait()` obtains a token until the backoff window
`min(max_backoff, 429_count^2 * 10)` has elapsed.  In the code, `on_429()` increments
`429_count`, halves `current_rate` and records the backoff — and then raises
`AttributeError` at `self.logger.warning` (line 106; the class has no `logger`
attribute), so `self.tokens = 0` and the `last_refill` adjustment (lines 112–113) never
execute: the token count keeps its prior value and no backoff window takes effect.  A
`wait()` issued at the same instant (0 seconds into the claimed 10-second window) obtains
a token from the untouched bucket.  Failing input: limiter `(requests_per_minute=20,
burst=5, backoff_on_429=True, max_backoff=300)` created at t=1000 with a full bucket,
one `on_429()`, one `wait()` at t=1000. -/
theorem C1_backoff_window_not_effective :
    let s0 : Cendoj.LimiterState := Cendoj.LimiterState.init 20 5 true 300 1000
    let s1 : Cendoj.LimiterState := s0.on429.1
    s0.on429.2 =
      some "AttributeError: AdaptiveRateLimiter object has no attribute logger" ∧
    s1.current_rate = max 1 (20 * (1/2)) ∧
    s1.count_429 = 1 ∧
    s1.current_backoff = 10 ∧
    s1.tokens = 5 ∧
    (s1.wait 1000).isOk = true ∧
    ((s1.wait 1000).map Cendoj.LimiterState.tokens) = .ok 4 := by
  refine ⟨?_, ?_, ?_, ?_, ?_, ?_, ?_⟩ <;>
    norm_num [Cendoj.LimiterState.init, Cendoj.LimiterState.on429,
      Cendoj.LimiterState.wait, Cendoj.LimiterState.refill, Except.map, Except.isOk, Except.toBool]

/-- C2. The claim says `wait()` returns normally exactly when a token becomes available
and otherwise sleeps (with ±10% jitter) and retries rather than failing.  In the code the
empty-bucket branch evaluates `tokens_needed / refill_rate if refilknowledge > 0 else 1.0`
where `refilknowledge` is an unbound name (and `random` / `self.logger` are also
undefined), so `wait()` raises `NameError` whenever the bucket is empty after refill.
Failing input: limiter `(20, burst=5, True, 300)` created at t=0; five `wait()` calls at
t=0 succeed (draining the burst), the sixth raises. -/
theorem C2_wait_raises_on_empty_bucket :
    let s0 : Cendoj.LimiterState := Cendoj.LimiterState.init 20 5 true 300 0
    (s0.waitRepeat 0 5).isOk = true ∧
    s0.waitRepeat 0 6 = .error "NameError: name refilknowledge is not defined" := by
  constructor <;>
    norm_num [Cendoj.LimiterState.waitRepeat, Cendoj.LimiterState.wait,
      Cendoj.LimiterState.refill, Cendoj.LimiterState.init, Except.isOk, Except.toBool]

/-- C9. Proxy scoring: a record with 10 successes, 0 failures, `avg_response_time = 1.0`
and `last_success = now` scores exactly 90; after `mark_result(success=False)` at the same
instant the score is `(10/11)*50 + 25 + 15 - 20 = 720/11 ≈ 65.45`. -/
theorem C9_proxy_scoring :
    let p0 : Cendoj.ProxyRecord :=
      { score := 50, total_requests := 10, successful_requests := 10, failed_requests := 0
        avg_response_time := some 1, last_success := some 0, last_error := none
        is_healthy := true }
    ((p0.updateScore 0).score = 90) ∧
    ((p0.markResult false none 0).score = (10/11) * 50 + 25 + 15 - 20) ∧
    ((p0.markResult false none 0).score = 720/11) ∧
    |(p0.markResult false none 0).score - (6545/100 : ℚ)| < 1/100 := by
  refine ⟨?_, ?_, ?_, ?_⟩ <;>
    norm_num [Cendoj.ProxyRecord.updateScore, Cendoj.ProxyRecord.markResult,
      Cendoj.ProxyRecord.successRate, abs_lt]

/-! ### Theorems: URL normalizer claim -/

/-- C4 counterexample.  The claim says the normalizer lowercases only the scheme and
host, and retains the query string (keys sorted) for non-PDF pages.  On the non-PDF input
`http://Example.com/Page?b=2&a=1` the code returns `http://example.com/page`: the path is
lowercased too, the query is dropped, and the output differs from the
claim-mandated `http://example.com/Page?a=1&b=2`.  Also, `/index.html` is not
collapsed to `/`. -/
theorem C4_normalizer_counterexample :
    Cendoj.normalizeUrl ("http://Example.com/Page?b=2&a=1".data) =
      "http://example.com/page".data ∧
    Cendoj.normalizeUrl ("http://Example.com/Page?b=2&a=1".data) ≠
      "http://example.com/Page?a=1&b=2".data ∧
    ('?' ∉ Cendoj.normalizeUrl ("http://Example.com/Page?b=2&a=1".data)) ∧
    Cendoj.normalizeUrl ("http://example.com/index.html".data) ≠
      "http://example.com/".data := by decide

/-- C4 (amended).  `_normalize_url` lowercases the entire URL (scheme, host and path
alike), removes fragment and query for every URL — PDF or not — keeps any explicit port
(including a default `:80`) and performs no `/index.html` collapsing; the result is
`scheme://netloc + path` of the lowercased URL. -/
theorem C4_normalizer_amended :
    (∀ u : Cendoj.Str, '?' ∉ Cendoj.normalizeUrl u ∧ '#' ∉ Cendoj.normalizeUrl u) ∧
    (∀ u q : Cendoj.Str, '?' ∉ u → '#' ∉ u → '#' ∉ q →
      Cendoj.normalizeUrl (u ++ '?' :: q) = Cendoj.normalizeUrl u) ∧
    Cendoj.normalizeUrl ("http://Example.com/A/B.PDF".data) =
      "http://example.com/a/b.pdf".data ∧
    Cendoj.normalizeUrl ("http://example.com:80/a".data) = "http://example.com:80/a".data ∧
    Cendoj.normalizeUrl ("http://example.com/index.html".data) =
      "http://example.com/index.html".data := by
  refine ⟨?_, ?_, by decide, by decide, by decide⟩
  · intro u
    constructor
    · intro hm
      rcases Cendoj.mem_normCore _ hm with hm | hm | hm
      · exact Cendoj.not_mem_splitFirst_fst '?' _ hm
      · exact absurd hm (by decide)
      · exact absurd hm (by decide)
    · intro hm
      rcases Cendoj.mem_normCore _ hm with hm | hm | hm
      · exact Cendoj.not_mem_splitFirst_fst '#' _ (Cendoj.mem_splitFirst_fst '?' _ hm)
      · exact absurd hm (by decide)
      · exact absurd hm (by decide)
  · intro u q h1 h2 h3
    unfold Cendoj.normalizeUrl
    rw [List.map_append, List.map_cons]
    rw [show Cendoj.lowerChar '?' = '?' from rfl]
    exact Cendoj.normCore_append_query _ _
      (Cendoj.not_mem_map_lowerChar (by decide) u h1)
      (Cendoj.not_mem_map_lowerChar (by decide) u h2)
      (Cendoj.not_mem_map_lowerChar (by decide) q h3)

/-- Witness for C4 (amended): the query-dropping component applied at a concrete
non-PDF URL. -/
theorem C4_normalizer_amended_witness :
    Cendoj.normalizeUrl ("http://example.com/page".data ++ '?' :: "b=2&a=1".data) =
      Cendoj.normalizeUrl ("http://example.com/page".data) :=
  C4_normalizer_amended.2.1 _ _ (by decide) (by decide) (by decide)

/-! ### Theorems: crawl loop, checkpointing and session claims -/

/-- C3.  The claim says that starting discovery with resume for a supplied session id
whose checkpoint exists replaces the visited set, queue and counters from that checkpoint
and does not re-visit checkpointed URLs.  In the code, `DiscoveryScanner.__init__` draws
a fresh uuid, `initialize(resume_session_id)` never reads its parameter, and the deep
crawler looks for `crawler_state_{fresh uuid}.pkl` — so the supplied session's checkpoint
is never loaded: the state starts empty with seeded queue and reset counters, and the
checkpointed URL would be visited again.  Had the supplied id been used
(`crawlerInitialize fs resumeSid`), the checkpoint would have been adopted. -/
theorem C3_resume_ignores_supplied_session :
    let resumeSid : Cendoj.Str := "session-old".data
    let ckpt : Cendoj.CrawlerCheckpoint :=
      { session_id := resumeSid
        visited_urls := [Cendoj.normalizeUrl ("http://a/x".data)]
        queue := []
        stats := { pages_visited := 250, pdfs_found := 7, internal_links_found := 3
                   errors := 1, captchas := 0 }
        saved_at := "2026-01-01T00:00:00".data }
    let fs : Cendoj.CheckpointFS := [(Cendoj.stateFileName resumeSid, ckpt)]
    let seeds := ["http://a/x".data]
    let st := Cendoj.scannerCrawlerInit ("session-new".data) (some resumeSid) fs seeds
    st.visited_urls = [] ∧
    st.queue = [{ url := "http://a/x".data, depth := 0, source_url := none
                  method := "seed" }] ∧
    st.stats = Cendoj.initCrawlStats ∧
    Cendoj.wouldVisit st ("http://a/x".data) = true ∧
    (Cendoj.crawlerInitialize fs resumeSid seeds).visited_urls =
      [Cendoj.normalizeUrl ("http://a/x".data)] := by
  decide

/-- C5 counterexample.  The claim is an iff: a URL is added to the visited set exactly
when the iteration's Page was successfully closed.  On an iteration whose navigation
returns HTTP 404 the page *is* successfully closed, yet the URL is not added. -/
theorem C5_visited_iff_close_counterexample :
    (Cendoj.crawlIteration
        { nav := .ok (some 404), captchaSkip := false, extractOk := true
          closeOk := true }).pageClosed = true ∧
    (Cendoj.crawlIteration
        { nav := .ok (some 404), captchaSkip := false, extractOk := true
          closeOk := true }).addedVisited = false := by
  decide

/-- C5 (amended).  A URL is added to the visited set iff the iteration fully processed
its page (navigation without exception or HTTP ≥ 400, no CAPTCHA skip, extraction block
completed, final close succeeded); in particular a URL is never added without its page
having been closed.  The iff direction the original claim adds — closed implies added —
fails on the HTTP-error and CAPTCHA paths, which close the page without adding. -/
theorem C5_visited_amended :
    ∀ env : Cendoj.IterEnv,
      (Cendoj.crawlIteration env).addedVisited = Cendoj.specFullyProcessed env ∧
      ((Cendoj.crawlIteration env).addedVisited &&
        !(Cendoj.crawlIteration env).pageClosed) = false := by
  intro env
  rcases env with ⟨nav, cs, eo, co⟩
  cases nav with
  | raised => simp [Cendoj.crawlIteration, Cendoj.specFullyProcessed]
  | ok st =>
    cases st with
    | none =>
      cases cs <;> cases eo <;> cases co <;>
        simp [Cendoj.crawlIteration, Cendoj.specFullyProcessed]
    | some s =>
      rcases Nat.lt_or_ge s 400 with h | h
      · cases cs <;> cases eo <;> cases co <;>
          simp [Cendoj.crawlIteration, Cendoj.specFullyProcessed, h, Nat.not_le.2 h]
      · cases cs <;> cases eo <;> cases co <;>
          simp [Cendoj.crawlIteration, Cendoj.specFullyProcessed, h, Nat.not_lt.2 h]

/-- C6 counterexample.  `_save_state` writes the pickle directly into the checkpoint
path: it is not of the write-temp-then-rename shape, and after the truncating open (the
first operation) the file at rest is empty — neither the previous checkpoint
(`OLDCHECKPOINT`) nor the new one. -/
theorem C6_checkpoint_counterexample :
    let c0 : Cendoj.CrawlerCheckpoint :=
      { session_id := "sess1".data
        visited_urls := [Cendoj.normalizeUrl ("http://a/x".data)]
        queue := [], stats := Cendoj.initCrawlStats, saved_at := "t1".data }
    let path := Cendoj.stateFileName ("sess1".data)
    let fs0 : Cendoj.FileSys := [(path, "OLDCHECKPOINT".data)]
    Cendoj.specTempThenRename (Cendoj.saveStateOps c0) path = false ∧
    Cendoj.readFile (Cendoj.runOps fs0 ((Cendoj.saveStateOps c0).take 1)) path =
      some [] ∧
    some ([] : Cendoj.Str) ≠ some ("OLDCHECKPOINT".data) ∧
    some ([] : Cendoj.Str) ≠ some (Cendoj.encodeState c0) := by
  decide

/-- C6 (amended).  Every checkpoint write opens the final checkpoint file itself with
truncation and pickles into it in place: no operation is a rename, the first operation
truncates the final path (so mid-write the file at rest is empty rather than the
previous or the new checkpoint), and after both operations the file holds the new
serialized state.  A failed write is caught and logged. -/
theorem C6_checkpoint_amended :
    ∀ (c : Cendoj.CrawlerCheckpoint) (fs : Cendoj.FileSys),
      ((Cendoj.saveStateOps c).all (fun op => !op.isRenameOp)) = true ∧
      (Cendoj.saveStateOps c).head? =
        some (.openTrunc (Cendoj.stateFileName c.session_id)) ∧
      Cendoj.readFile (Cendoj.runOps fs (Cendoj.saveStateOps c))
        (Cendoj.stateFileName c.session_id) = some (Cendoj.encodeState c) ∧
      Cendoj.readFile (Cendoj.runOps fs ((Cendoj.saveStateOps c).take 1))
        (Cendoj.stateFileName c.session_id) = some [] := by
  intro c fs
  refine ⟨rfl, rfl, ?_, ?_⟩ <;>
    simp [Cendoj.runOps, Cendoj.saveStateOps, Cendoj.applyOp, Cendoj.readFile_setFile]

/-- C7.  The claim says every session reaches exactly one terminal status; in particular
a run that drains the frontier normally ends `completed`.  In the code
`DiscoveryScanner.run` only updates the status in its two `except` arms
(`interrupted` for KeyboardInterrupt, `failed` for other exceptions); the normal path
performs no update, so the session stays `running` with `end_time` unset. -/
theorem C7_session_status_never_completed :
    let row0 : Cendoj.SessionRow := { status := "running", start_time := 0, end_time := none }
    Cendoj.runFinalStatus row0 .drainedNormally 5 = row0 ∧
    (Cendoj.runFinalStatus row0 .drainedNormally 5).status = "running" ∧
    Cendoj.isTerminalStatus "running" = false ∧
    (Cendoj.runFinalStatus row0 .drainedNormally 5).end_time = none ∧
    (Cendoj.runFinalStatus row0 .keyboardInterrupt 5).status = "interrupted" ∧
    (Cendoj.runFinalStatus row0 .fatalError 5).status = "failed" := by
  exact ⟨rfl, rfl, by decide, rfl, rfl, rfl⟩

/-- C10.  When deduplication is enabled and the PDF's normalized URL already has a row,
the store is left entirely unchanged — `_store_pdf_link` returns `None` before inserting,
and the validation update is guarded by `if pdf_link:` so the existing row's status,
validated_at, http_status and content_length are untouched even when
`validate_on_discovery` runs — yet the PDF is still yielded to the output stream. -/
theorem C10_duplicate_leaves_store_unchanged :
    ∀ (cfg : Cendoj.CrawlCfg) (sessionId : Cendoj.Str) (store : List Cendoj.PdfRow)
      (p : Cendoj.PdfCandidate) (v : Cendoj.ValidationResult) (now : ℚ),
      cfg.deduplicate = true →
      (∃ r ∈ store, r.normalized_url = Cendoj.normalizeUrl p.url) →
      Cendoj.processDiscoveredPdf cfg sessionId store p v now =
        (store, [{ url := p.url, method := p.method, had_db_row := false
                   validation := if cfg.validate_on_discovery then some v else none }]) := by
  intro cfg sid store p v now hded hex
  have hfind :
      (store.find? (fun r => r.normalized_url == Cendoj.normalizeUrl p.url)).isSome
        = true := by
    obtain ⟨r, hr, he⟩ := hex
    exact List.find?_isSome.2 ⟨r, hr, by simp [he]⟩
  simp [Cendoj.processDiscoveredPdf, Cendoj.storePdfLink, hded, hfind]

/-- Witness for C10: a concrete duplicate — the store already holds a row for
`http://site/x.pdf` (found earlier by regex); re-discovering it with deduplication and
validation enabled leaves the store unchanged and still emits the PDF. -/
theorem C10_duplicate_leaves_store_unchanged_witness :
    let p0 : Cendoj.PdfCandidate :=
      { url := "http://site/x.pdf".data, source_url := "http://site/page".data
        depth := 1, method := "css_pdf_selector", confidence := 9/10 }
    let row0 : Cendoj.PdfRow :=
      { url := "http://site/x.pdf".data
        normalized_url := Cendoj.normalizeUrl ("http://site/x.pdf".data)
        source_url := "http://site/old".data, discovery_session_id := "older".data
        status := "discovered", extraction_method := "regex_fallback"
        extraction_confidence := 7/10, validated_at := none, http_status := none
        content_length := none }
    let v0 : Cendoj.ValidationResult :=
      { accessible := true, status := some 200, content_length := some 5 }
    Cendoj.processDiscoveredPdf { deduplicate := true, validate_on_discovery := true }
        ("sess".data) [row0] p0 v0 0 =
      ([row0], [{ url := p0.url, method := p0.method, had_db_row := false
                  validation := some v0 }]) := by
  exact C10_duplicate_leaves_store_unchanged _ _ _ _ _ _ rfl
    ⟨_, List.mem_cons_self _ _, rfl⟩

/-- C8.  On the page with `<a href="/x.pdf">` and an inline script embedding
`https://site/x.pdf` (source page `https://site/page`), all three methods fire in order
(CSS 0.9, HTML regex 0.7, script scan 0.6) on the same document, dedup by normalized URL
keeps the first-seen hit, and storing the result inserts exactly one `PDFLink` row with
`extraction_method = css_pdf_selector` and `confidence = 0.9`.  In general the dedup
output has pairwise-distinct normalized URLs and each kept candidate carries the maximal
confidence among all candidates sharing its normalized URL. -/
theorem C8_dedup_across_methods :
    let src : Cendoj.Str := "https://site/page".data
    ((Cendoj.allPdfCandidates Cendoj.dedupScenarioPage src 1).map
        Cendoj.PdfCandidate.method) =
      ["css_pdf_selector", "regex_fallback", "script_scan"] ∧
    ((Cendoj.allPdfCandidates Cendoj.dedupScenarioPage src 1).map
        Cendoj.PdfCandidate.url) =
      ["https://site/x.pdf".data, "https://site/x.pdf".data, "https://site/x.pdf".data] ∧
    ((Cendoj.extractPdfsFromPage Cendoj.dedupScenarioPage src 1).map
        fun p => (p.url, p.method)) =
      [("https://site/x.pdf".data, "css_pdf_selector")] ∧
    ((Cendoj.extractPdfsFromPage Cendoj.dedupScenarioPage src 1).map
        Cendoj.PdfCandidate.confidence) = [9/10] ∧
    ((Cendoj.storeAllPdfLinks { deduplicate := true, validate_on_discovery := false }
        ("sess".data) [] (Cendoj.extractPdfsFromPage Cendoj.dedupScenarioPage src 1)).map
      (fun r => (r.normalized_url, r.extraction_method, r.status))) =
      [("https://site/x.pdf".data, "css_pdf_selector", "discovered")] ∧
    ((Cendoj.storeAllPdfLinks { deduplicate := true, validate_on_discovery := false }
        ("sess".data) [] (Cendoj.extractPdfsFromPage Cendoj.dedupScenarioPage src 1)).map
      Cendoj.PdfRow.extraction_confidence) = [9/10] ∧
    (∀ (page : Cendoj.Page) (src : Cendoj.Str) (d : ℕ),
      (Cendoj.extractPdfsFromPage page src d).Pairwise
        (fun a b => Cendoj.normalizeUrl a.url ≠ Cendoj.normalizeUrl b.url)) ∧
    (∀ (page : Cendoj.Page) (src : Cendoj.Str) (d : ℕ),
      ∀ x ∈ Cendoj.extractPdfsFromPage page src d,
        ∀ c ∈ Cendoj.allPdfCandidates page src d,
        Cendoj.normalizeUrl c.url = Cendoj.normalizeUrl x.url →
          c.confidence ≤ x.confidence) := by
  refine ⟨by decide, by decide, by decide, rfl, by decide, rfl, ?_, ?_⟩
  · intro page src d
    exact Cendoj.dedupByNormalized_pairwise _ _
  · intro page src d x hx c hc hkey
    exact Cendoj.dedupByNormalized_keeps_max _ _
      (Cendoj.allPdfCandidates_sorted page src d) x hx c hc hkey

/-- Witness for C8: the maximal-confidence component applied on the scenario page — the
regex hit for `https://site/x.pdf` (confidence 0.7) does not beat the kept CSS hit
(confidence 0.9). -/
theorem C8_dedup_across_methods_witness :
    ({ url := "https://site/x.pdf".data, source_url := "https://site/page".data
       depth := 1, method := "regex_fallback"
       confidence := 7/10 } : Cendoj.PdfCandidate).confidence ≤
    ({ url := Cendoj.urljoin ("https://site/page".data) ("/x.pdf".data)
       source_url := "https://site/page".data, depth := 1
       method := "css_pdf_selector"
       confidence := 9/10 } : Cendoj.PdfCandidate).confidence := by
  exact C8_dedup_across_methods.2.2.2.2.2.2.2 Cendoj.dedupScenarioPage
    ("https://site/page".data) 1 _ (List.mem_cons_self _ _) _
    (List.mem_cons_of_mem _ (List.mem_cons_self _ _)) (by decide)

end Cendoj
